import Mathlib

/-!
# Beanstalk queue adapter (`queue/beanstalk.go`)

A shallow embedding of the beanstalk adapter of the `queue` package.  The Go
code talks to a beanstalkd server through `*beanstalk.Conn`; here a connection
is a record holding the trace of the calls issued on it together with the
answers the server gives, and the pointers to connections are addresses into a
`World`.  Every method that performs a network call takes the world and returns
the new one.
-/

namespace Queue

/-! ## Basic types -/

/-- One octet of a payload (`byte`). -/
abbrev Byte := Fin 256

/-- Go's `time.Duration`: a number of nanoseconds. -/
abbrev Duration := Int

/-- Go's `time.Second`. -/
def Second : Duration := 1000000000

/-- Go's `time.Minute`. -/
def Minute : Duration := 60 * Second

/-- Address of a `beanstalk.Conn` (the Go code holds `*beanstalk.Conn`). -/
abbrev ConnPtr := Nat

/-- Modelled from the spec: the sentinel errors `ErrEmptyJob`,
`ErrTxNotSupported` and `ErrAlreadyClosed` are package variables declared
outside `beanstalk.go`; they are distinct non-nil errors local to the package.
`ConnError` is `beanstalk.ConnError{Conn, Op, Err}`; its inner error is kept as
`none` for a nil error and otherwise as the string its `Error()` method
returns, which is all the adapter reads from it.  `other` stands for any
further transport error. -/
inductive Error where
  | ErrEmptyJob
  | ErrTxNotSupported
  | ErrAlreadyClosed
  | ConnError (Conn : ConnPtr) (Op : String) (Err : Option String)
  | other (msg : String)
  deriving DecidableEq, Repr

/-- A call issued on a connection, with its arguments. -/
inductive Call where
  | put (tube : String) (body : List Byte) (pri : Nat) (delay ttr : Duration)
  | reserve (tubes : List String) (timeout : Duration)
  | delete (id : Nat)
  | release (id : Nat) (pri : Nat) (delay : Duration)
  deriving DecidableEq, Repr

/-- The connection collaborator: the trace of calls issued so far (oldest
first) and the server's answer to each kind of call, which may depend on the
whole trace up to and including the call being answered. -/
structure Conn where
  calls : List Call
  putResp : List Call → Nat × Option Error
  reserveResp : List Call → Nat × List Byte × Option Error
  deleteResp : List Call → Option Error
  releaseResp : List Call → Option Error

/-- The state of every connection, by address. -/
abbrev World := ConnPtr → Conn

/-- Record one call on the connection at `c`. -/
def World.issue (w : World) (c : ConnPtr) (call : Call) : World :=
  Function.update w c { w c with calls := (w c).calls ++ [call] }

/-- Go's `beanstalk.Tube`. -/
structure Tube where
  Conn : ConnPtr
  Name : String
  deriving DecidableEq, Repr

/-- Go's `beanstalk.TubeSet`: a connection and the set of watched tube names. -/
structure TubeSet where
  Conn : ConnPtr
  Name : List String
  deriving DecidableEq, Repr

/-- The constructor `beanstalk.NewTubeSet(c, name...)`. -/
def NewTubeSet (c : ConnPtr) (names : List String) : TubeSet :=
  { Conn := c, Name := names }

/-- The method `(*beanstalk.Tube).Put(body, pri, delay, ttr)`. -/
def Tube.Put (t : Tube) (body : List Byte) (pri : Nat) (delay ttr : Duration)
    (w : World) : (Nat × Option Error) × World :=
  let w1 := w.issue t.Conn (Call.put t.Name body pri delay ttr)
  ((w t.Conn).putResp (w1 t.Conn).calls, w1)

/-- The method `(*beanstalk.TubeSet).Reserve(timeout)`. -/
def TubeSet.Reserve (t : TubeSet) (timeout : Duration)
    (w : World) : (Nat × List Byte × Option Error) × World :=
  let w1 := w.issue t.Conn (Call.reserve t.Name timeout)
  ((w t.Conn).reserveResp (w1 t.Conn).calls, w1)

/-- The method `(*beanstalk.Conn).Delete(id)`. -/
def Conn.Delete (c : ConnPtr) (id : Nat) (w : World) : Option Error × World :=
  let w1 := w.issue c (Call.delete id)
  ((w c).deleteResp (w1 c).calls, w1)

/-- The method `(*beanstalk.Conn).Release(id, pri, delay)`. -/
def Conn.Release (c : ConnPtr) (id : Nat) (pri : Nat) (delay : Duration)
    (w : World) : Option Error × World :=
  let w1 := w.issue c (Call.release id pri delay)
  ((w c).releaseResp (w1 c).calls, w1)

/-- Go's `fmt.Sprint` on an unsigned integer: its decimal representation. -/
def fmtSprint (n : Nat) : String := Nat.repr n

/-! ## The adapter -/

/-- The struct `beanstalkAcknowledger`. -/
structure beanstalkAcknowledger where
  id : Nat
  conn : ConnPtr
  deriving DecidableEq, Repr

/-- Modelled from the spec: `Job` is declared outside `beanstalk.go`; these are
the fields the adapter reads or writes.  `Priority` is an unsigned integer,
`raw` the payload, `acknowledger` is `none` for a nil acknowledger. -/
structure Job where
  ID : String
  Priority : Nat
  contentType : String
  raw : List Byte
  acknowledger : Option beanstalkAcknowledger
  tag : Nat
  deriving DecidableEq, Repr

/-- Declarations of the package that live outside `beanstalk.go`: the job
`NewJob()` returns and the constant `msgpackContentType`. -/
structure Pkg where
  NewJob : Job
  msgpackContentType : String

/-- The struct `beanstalkQueue`. -/
structure beanstalkQueue where
  tube : Tube
  deriving DecidableEq, Repr

/-- The struct `beanstalkJobIter`. -/
structure beanstalkJobIter where
  t : TubeSet
  name : String
  closed : Bool
  deriving DecidableEq, Repr

/-- The conversion `uint32(x)` on an unsigned integer. -/
def uint32 (x : Nat) : Nat := x % 2 ^ 32

/-- The method `(*beanstalkQueue).Publish`: a nil job is `none`; returns the error, the
job after the call and the new world. -/
def beanstalkQueue.Publish (q : beanstalkQueue) (j : Option Job) (w : World) :
    Option Error × Option Job × World :=
  match j with
  | none => (some Error.ErrEmptyJob, none, w)
  | some j =>
    if j.raw.length = 0 then (some Error.ErrEmptyJob, some j, w)
    else
      let r := q.tube.Put j.raw (uint32 j.Priority) 0 (1 * Minute) w
      let j1 := { j with tag := r.1.1 }
      let j2 := { j1 with ID := fmtSprint j1.tag }
      (r.1.2, some j2, r.2)

/-- The method `(*beanstalkQueue).PublishDelayed`. -/
def beanstalkQueue.PublishDelayed (q : beanstalkQueue) (j : Option Job)
    (delay : Duration) (w : World) : Option Error × Option Job × World :=
  match j with
  | none => (some Error.ErrEmptyJob, none, w)
  | some j =>
    if j.raw.length = 0 then (some Error.ErrEmptyJob, some j, w)
    else
      let r := q.tube.Put j.raw (uint32 j.Priority) delay (1 * Minute) w
      let j1 := { j with tag := r.1.1 }
      (r.1.2, some j1, r.2)

/-- The type `TxCallback`: a function from the queue to an error, which may use the
connection. -/
abbrev TxCallback := beanstalkQueue → World → Option Error × World

/-- The method `(*beanstalkQueue).Transaction`. -/
def beanstalkQueue.Transaction (_q : beanstalkQueue) (_txcb : TxCallback)
    (w : World) : Option Error × World :=
  (some Error.ErrTxNotSupported, w)

/-- The method `(*beanstalkQueue).Consume`. -/
def beanstalkQueue.Consume (q : beanstalkQueue) : beanstalkJobIter × Option Error :=
  ({ t := NewTubeSet q.tube.Conn [q.tube.Name], name := q.tube.Name, closed := false },
   none)

/-- Result of calling a nil error's method. -/
inductive Panic where
  | nilDereference
  deriving DecidableEq, Repr

/-- The function `isBeanstalkTimeoutError`. -/
def isBeanstalkTimeoutError (err : Option Error) : Except Panic Bool :=
  match err with
  | none => .ok false
  | some (Error.ConnError _ Op Err) =>
    if Op ≠ "reserve-with-timeout" then .ok false
    else
      match Err with
      | none => .error Panic.nilDereference
      | some msg => .ok (msg == "timeout")
  | some _ => .ok false

/-- The method `(*beanstalkJobIter).next`. -/
def beanstalkJobIter.next (p : Pkg) (i : beanstalkJobIter) (w : World) :
    (Option Job × Option Error) × World :=
  let r := i.t.Reserve (1 * Second) w
  let id := r.1.1
  let body := r.1.2.1
  match r.1.2.2 with
  | some err => ((none, some err), r.2)
  | none =>
    let j := p.NewJob
    let j := { j with tag := id }
    let j := { j with ID := fmtSprint id }
    let j := { j with raw := body }
    let j := { j with acknowledger := some { id := id, conn := i.t.Conn } }
    let j := { j with contentType := p.msgpackContentType }
    ((some j, none), r.2)

/-- The method `(*beanstalkJobIter).Next`: the `for` loop runs at most `fuel` times;
`none` means the loop was still running when the fuel ran out.  The result is
what the call returns (or the panic that ends it), the iterator and the world. -/
def beanstalkJobIter.Next (p : Pkg) :
    Nat → beanstalkJobIter → World →
      Option (Except Panic (Option Job × Option Error) × beanstalkJobIter × World)
  | 0, _, _ => none
  | fuel + 1, i, w =>
    if i.closed then some (.ok (none, some Error.ErrAlreadyClosed), i, w)
    else
      let r := i.next p w
      match isBeanstalkTimeoutError r.1.2 with
      | .error e => some (.error e, i, r.2)
      | .ok true => beanstalkJobIter.Next p fuel i r.2
      | .ok false => some (.ok r.1, i, r.2)

/-- The method `(*beanstalkJobIter).Close`. -/
def beanstalkJobIter.Close (i : beanstalkJobIter) : Option Error × beanstalkJobIter :=
  (none, { i with closed := true })

/-- The method `(*beanstalkAcknowledger).Ack`. -/
def beanstalkAcknowledger.Ack (a : beanstalkAcknowledger) (w : World) :
    Option Error × World :=
  Conn.Delete a.conn a.id w

/-- The method `(*beanstalkAcknowledger).Reject`. -/
def beanstalkAcknowledger.Reject (a : beanstalkAcknowledger) (requeue : Bool)
    (w : World) : Option Error × World :=
  if !requeue then a.Ack w
  else Conn.Release a.conn a.id 1 0 w

/-! ## Vocabulary for the statements -/

/-- The reservation call the iterator issues: its tube set, one second. -/
def beanstalkJobIter.reserveCall (i : beanstalkJobIter) : Call :=
  Call.reserve i.t.Name (1 * Second)

/-- The job `next` builds from a reservation `(id, body)`: the job of `NewJob()`
with the five assignments of `next` applied. -/
def beanstalkJobIter.jobOf (p : Pkg) (i : beanstalkJobIter) (id : Nat) (body : List Byte) : Job :=
  { ID := fmtSprint id
    Priority := p.NewJob.Priority
    contentType := p.msgpackContentType
    raw := body
    acknowledger := some { id := id, conn := i.t.Conn }
    tag := id }

/-- The timeout error of beanstalk's `reserve-with-timeout`: a `ConnError` with
that operation whose inner error reads "timeout". -/
def timeoutError (c : ConnPtr) : Error :=
  Error.ConnError c "reserve-with-timeout" (some "timeout")

/-- Iterators on which `Close` has been called at least once: the iterator a
call to `Close` leaves behind (on any iterator, closed before or not), and
every iterator a later `Next` leaves behind. -/
inductive ClosedOnce (p : Pkg) : beanstalkJobIter → Prop where
  | close (i : beanstalkJobIter) : ClosedOnce p (i.Close).2
  | next (i : beanstalkJobIter) (fuel : Nat) (w : World)
      (r : Except Panic (Option Job × Option Error)) (i1 : beanstalkJobIter) (w1 : World) :
      ClosedOnce p i → i.Next p fuel w = some (r, i1, w1) → ClosedOnce p i1

/-! ## Concrete inputs -/

/-- The payload `"hello"`. -/
def helloBytes : List Byte := [104, 101, 108, 108, 111]

/-- The payload `"world"`. -/
def worldBytes : List Byte := [119, 111, 114, 108, 100]

/-- A server with an empty trace that accepts every put with tag `putTag`,
answers the first `n` calls with a reservation timeout and every later
reservation with `(tag, body)`, and accepts every delete and release. -/
def scriptedConn (putTag n tag : Nat) (body : List Byte) : Conn :=
  { calls := []
    putResp := fun _ => (putTag, none)
    reserveResp := fun tr =>
      if tr.length ≤ n then (0, [], some (timeoutError 0)) else (tag, body, none)
    deleteResp := fun _ => none
    releaseResp := fun _ => none }

/-- A world whose connections all accept puts with tag 42, time out twice and
then deliver tag 7 with payload `"world"`. -/
def scriptedWorld : World := fun _ => scriptedConn 42 2 7 worldBytes

/-- A server with an empty trace that answers while the trace holds at most
`n` calls with a reservation timeout and every later reservation with the
transport error "NOT_FOUND", which is not a timeout. -/
def failingConn (n : Nat) : Conn :=
  { calls := []
    putResp := fun _ => (0, some (Error.other "NOT_FOUND"))
    reserveResp := fun tr =>
      if tr.length ≤ n then (0, [], some (timeoutError 0))
      else (0, [], some (Error.other "NOT_FOUND"))
    deleteResp := fun _ => some (Error.other "NOT_FOUND")
    releaseResp := fun _ => some (Error.other "NOT_FOUND") }

/-- A world whose connections all time out once and then fail with
"NOT_FOUND". -/
def failingWorld : World := fun _ => failingConn 1

/-- A job as a producer makes it: no ID, no tag, no acknowledger. -/
def blankJob (pri : Nat) (body : List Byte) : Job :=
  { ID := "", Priority := pri, contentType := "", raw := body, acknowledger := none, tag := 0 }

/-- The package declarations used in the examples. -/
def examplePkg : Pkg :=
  { NewJob := blankJob 0 [], msgpackContentType := "application/msgpack" }

/-- The queue `jobs` on connection 0. -/
def jobsQueue : beanstalkQueue := { tube := { Conn := 0, Name := "jobs" } }

/-- The iterator `Consume` returns for the queue `jobs`. -/
def jobsIter : beanstalkJobIter := jobsQueue.Consume.1

/-! ## Facts about the connection trace -/

theorem World.issue_same (w : World) (c : ConnPtr) (call : Call) :
    (w.issue c call) c = { w c with calls := (w c).calls ++ [call] } := by
  simp [World.issue]

theorem World.issue_other (w : World) (c c' : ConnPtr) (call : Call) (h : c' ≠ c) :
    (w.issue c call) c' = w c' := by
  simp [World.issue, Function.update, h]

theorem next_world (p : Pkg) (i : beanstalkJobIter) (w : World) :
    (i.next p w).2 = w.issue i.t.Conn i.reserveCall := by
  unfold beanstalkJobIter.next
  simp only [TubeSet.Reserve, beanstalkJobIter.reserveCall]
  split <;> rfl

theorem next_ok (p : Pkg) (i : beanstalkJobIter) (w : World) (id : Nat) (body : List Byte)
    (h : (w i.t.Conn).reserveResp ((w i.t.Conn).calls ++ [i.reserveCall]) = (id, body, none)) :
    (i.next p w).1 = (some (i.jobOf p id body), none) := by
  unfold beanstalkJobIter.next
  simp only [TubeSet.Reserve, World.issue_same]
  simp only [beanstalkJobIter.reserveCall] at h
  rw [h]
  rfl

theorem next_err (p : Pkg) (i : beanstalkJobIter) (w : World) (e : Error)
    (h : ((w i.t.Conn).reserveResp ((w i.t.Conn).calls ++ [i.reserveCall])).2.2 = some e) :
    (i.next p w).1 = (none, some e) := by
  unfold beanstalkJobIter.next
  simp only [TubeSet.Reserve, World.issue_same]
  simp only [beanstalkJobIter.reserveCall] at h
  rw [h]

theorem isBeanstalkTimeoutError_timeout (cp : ConnPtr) :
    isBeanstalkTimeoutError (some (timeoutError cp)) = .ok true := by
  simp [isBeanstalkTimeoutError, timeoutError]

theorem Next_retries (p : Pkg) (i : beanstalkJobIter) (hopen : i.closed = false)
    (tag : Nat) (body : List Byte) (N : Nat) :
    ∀ w : World,
      (∀ k, k < N → ∃ cp, ((w i.t.Conn).reserveResp
          ((w i.t.Conn).calls ++ List.replicate (k + 1) i.reserveCall)).2.2 =
            some (timeoutError cp)) →
      (w i.t.Conn).reserveResp
          ((w i.t.Conn).calls ++ List.replicate (N + 1) i.reserveCall) = (tag, body, none) →
      ∀ fuel, N < fuel →
        ∃ w', i.Next p fuel w = some (.ok (some (i.jobOf p tag body), none), i, w') ∧
          (w' i.t.Conn).calls = (w i.t.Conn).calls ++ List.replicate (N + 1) i.reserveCall ∧
          ∀ c, c ≠ i.t.Conn → w' c = w c := by
  induction N with
  | zero =>
    intro w _ hok fuel hfuel
    obtain ⟨f, rfl⟩ : ∃ f, fuel = f + 1 := ⟨fuel - 1, by omega⟩
    refine ⟨w.issue i.t.Conn i.reserveCall, ?_, ?_, ?_⟩
    · have h1 := next_ok p i w tag body (by simpa using hok)
      simp only [beanstalkJobIter.Next, hopen, next_world, h1]
      simp [isBeanstalkTimeoutError]
    · simp [World.issue_same]
    · intro c hc
      exact World.issue_other w _ c _ hc
  | succ n ih =>
    intro w hto hok fuel hfuel
    obtain ⟨f, rfl⟩ : ∃ f, fuel = f + 1 := ⟨fuel - 1, by omega⟩
    obtain ⟨cp, hcp⟩ := hto 0 (by omega)
    have h1 := next_err p i w _ (by simpa using hcp)
    have hcalls : ∀ m, ((w.issue i.t.Conn i.reserveCall) i.t.Conn).calls ++
        List.replicate m i.reserveCall =
        (w i.t.Conn).calls ++ List.replicate (m + 1) i.reserveCall := by
      intro m
      simp [World.issue_same, List.replicate_succ]
    have hresp : ((w.issue i.t.Conn i.reserveCall) i.t.Conn).reserveResp =
        (w i.t.Conn).reserveResp := by
      simp [World.issue_same]
    obtain ⟨w', hN, hc, ho⟩ := ih (w.issue i.t.Conn i.reserveCall)
      (by
        intro k hk
        obtain ⟨cp', h'⟩ := hto (k + 1) (by omega)
        exact ⟨cp', by rw [hresp, hcalls]; exact h'⟩)
      (by rw [hresp, hcalls]; exact hok) f (by omega)
    refine ⟨w', ?_, ?_, ?_⟩
    · rw [← hN]
      simp only [beanstalkJobIter.Next, hopen, next_world, h1,
        isBeanstalkTimeoutError_timeout]
      simp
    · rw [hc, hcalls]
    · intro c hne
      rw [ho c hne]
      exact World.issue_other w _ c _ hne

theorem Next_closed (p : Pkg) (i : beanstalkJobIter) (h : i.closed = true) (fuel : Nat)
    (w : World) :
    i.Next p (fuel + 1) w = some (.ok (none, some Error.ErrAlreadyClosed), i, w) := by
  simp [beanstalkJobIter.Next, h]

theorem ClosedOnce.closed {p : Pkg} {i : beanstalkJobIter} (h : ClosedOnce p i) :
    i.closed = true := by
  induction h with
  | close i => rfl
  | next i fuel w r i1 w1 _ hn ih =>
    cases fuel with
    | zero => simp [beanstalkJobIter.Next] at hn
    | succ f =>
      rw [Next_closed p i ih f w] at hn
      simp only [Option.some.injEq, Prod.mk.injEq] at hn
      rw [← hn.2.1]
      exact ih

theorem toDigitsCore_ne_nil (b : Nat) (fuel : Nat) :
    ∀ (n : Nat) (ds : List Char), ds ≠ [] → Nat.toDigitsCore b fuel n ds ≠ [] := by
  induction fuel with
  | zero => intro n ds h; simpa [Nat.toDigitsCore] using h
  | succ f ih =>
    intro n ds _
    simp only [Nat.toDigitsCore]
    split
    · simp
    · exact ih _ _ (by simp)

theorem fmtSprint_ne_empty (n : Nat) : fmtSprint n ≠ "" := by
  have h : Nat.toDigits 10 n ≠ [] := by
    simp only [Nat.toDigits, Nat.toDigitsCore]
    split
    · simp
    · exact toDigitsCore_ne_nil 10 n _ _ (by simp)
  intro he
  apply h
  have := congrArg String.data he
  simpa [fmtSprint, Nat.repr, List.asString] using this

theorem next_shape (p : Pkg) (i : beanstalkJobIter) (w : World) :
    ((i.next p w).1.1 ≠ none ∧ (i.next p w).1.2 = none) ∨
    ((i.next p w).1.1 = none ∧ (i.next p w).1.2 ≠ none) := by
  rcases hr : (w i.t.Conn).reserveResp ((w i.t.Conn).calls ++ [i.reserveCall]) with
    ⟨id, body, err⟩
  cases err with
  | none => rw [next_ok p i w id body hr]; simp
  | some e => rw [next_err p i w e (by rw [hr])]; simp

theorem Next_returns (p : Pkg) (fuel : Nat) :
    ∀ (i : beanstalkJobIter) (w : World) (r : Option Job × Option Error)
      (i1 : beanstalkJobIter) (w1 : World),
      i.Next p fuel w = some (.ok r, i1, w1) →
        i1 = i ∧
        ((r = (none, some Error.ErrAlreadyClosed)) ∨
          (∃ w0, r = (i.next p w0).1 ∧ w1 = (i.next p w0).2)) ∧
        isBeanstalkTimeoutError r.2 = .ok false := by
  induction fuel with
  | zero => intro i w r i1 w1 h; simp [beanstalkJobIter.Next] at h
  | succ f ih =>
    intro i w r i1 w1 h
    simp only [beanstalkJobIter.Next] at h
    split at h
    · simp only [Option.some.injEq, Prod.mk.injEq, Except.ok.injEq] at h
      obtain ⟨rfl, rfl, rfl⟩ := h
      exact ⟨rfl, Or.inl rfl, rfl⟩
    · split at h
      · simp at h
      · exact ih i _ r i1 w1 h
      · next hto =>
        simp only [Option.some.injEq, Prod.mk.injEq, Except.ok.injEq] at h
        obtain ⟨rfl, rfl, rfl⟩ := h
        exact ⟨rfl, Or.inr ⟨w, rfl, rfl⟩, hto⟩

theorem next_error_eq (p : Pkg) (i : beanstalkJobIter) (w : World) :
    (i.next p w).1.2 =
      ((w i.t.Conn).reserveResp ((w i.t.Conn).calls ++ [i.reserveCall])).2.2 := by
  rcases hr : (w i.t.Conn).reserveResp ((w i.t.Conn).calls ++ [i.reserveCall]) with
    ⟨id, body, err⟩
  cases err with
  | none => rw [next_ok p i w id body hr]
  | some e => rw [next_err p i w e (by rw [hr])]

theorem issue_calls_replicate (i : beanstalkJobIter) (w : World) (m : Nat) :
    ((w.issue i.t.Conn i.reserveCall) i.t.Conn).calls ++ List.replicate m i.reserveCall =
      (w i.t.Conn).calls ++ List.replicate (m + 1) i.reserveCall := by
  simp [World.issue_same, List.replicate_succ]

theorem issue_reserveResp (i : beanstalkJobIter) (w : World) :
    ((w.issue i.t.Conn i.reserveCall) i.t.Conn).reserveResp = (w i.t.Conn).reserveResp := by
  simp [World.issue_same]

theorem Next_hard_error (p : Pkg) (i : beanstalkJobIter) (hopen : i.closed = false)
    (e : Error) (he : isBeanstalkTimeoutError (some e) = .ok false) (N : Nat) :
    ∀ w : World,
      (∀ k, k < N → isBeanstalkTimeoutError ((w i.t.Conn).reserveResp
          ((w i.t.Conn).calls ++ List.replicate (k + 1) i.reserveCall)).2.2 = .ok true) →
      ((w i.t.Conn).reserveResp
          ((w i.t.Conn).calls ++ List.replicate (N + 1) i.reserveCall)).2.2 = some e →
      ∀ fuel, N < fuel →
        ∃ w1, i.Next p fuel w = some (.ok (none, some e), i, w1) ∧
          (w1 i.t.Conn).calls = (w i.t.Conn).calls ++ List.replicate (N + 1) i.reserveCall ∧
          ∀ c, c ≠ i.t.Conn → w1 c = w c := by
  induction N with
  | zero =>
    intro w _ hres fuel hfuel
    obtain ⟨f, rfl⟩ : ∃ f, fuel = f + 1 := ⟨fuel - 1, by omega⟩
    have h1 := next_err p i w e (by simpa using hres)
    refine ⟨w.issue i.t.Conn i.reserveCall, ?_, ?_, ?_⟩
    · simp only [beanstalkJobIter.Next, hopen, next_world, h1, he]
      simp
    · simp [World.issue_same]
    · intro c hc
      exact World.issue_other w _ c _ hc
  | succ n ih =>
    intro w hto hres fuel hfuel
    obtain ⟨f, rfl⟩ : ∃ f, fuel = f + 1 := ⟨fuel - 1, by omega⟩
    have h0 := hto 0 (by omega)
    have h1 : isBeanstalkTimeoutError (i.next p w).1.2 = .ok true := by
      rw [next_error_eq]
      simpa using h0
    obtain ⟨w1, hN, hc, ho⟩ := ih (w.issue i.t.Conn i.reserveCall)
      (by
        intro k hk
        rw [issue_reserveResp, issue_calls_replicate]
        exact hto (k + 1) (by omega))
      (by rw [issue_reserveResp, issue_calls_replicate]; exact hres) f (by omega)
    refine ⟨w1, ?_, ?_, ?_⟩
    · rw [← hN]
      simp only [beanstalkJobIter.Next, hopen, h1, next_world]
      simp
    · rw [hc, issue_calls_replicate]
    · intro c hne
      rw [ho c hne]
      exact World.issue_other w _ c _ hne

theorem Next_returns_open (p : Pkg) (i : beanstalkJobIter) (hopen : i.closed = false)
    (fuel : Nat) :
    ∀ (w : World) (r : Option Job × Option Error) (i1 : beanstalkJobIter) (w1 : World),
      i.Next p fuel w = some (.ok r, i1, w1) →
        ∃ n, n < fuel ∧
          (w1 i.t.Conn).calls =
            (w i.t.Conn).calls ++ List.replicate (n + 1) i.reserveCall ∧
          r.2 = ((w i.t.Conn).reserveResp
            ((w i.t.Conn).calls ++ List.replicate (n + 1) i.reserveCall)).2.2 ∧
          (∀ k, k < n → isBeanstalkTimeoutError ((w i.t.Conn).reserveResp
            ((w i.t.Conn).calls ++ List.replicate (k + 1) i.reserveCall)).2.2 = .ok true) ∧
          ∀ c, c ≠ i.t.Conn → w1 c = w c := by
  induction fuel with
  | zero => intro w r i1 w1 h; simp [beanstalkJobIter.Next] at h
  | succ f ih =>
    intro w r i1 w1 h
    simp only [beanstalkJobIter.Next, hopen, Bool.false_eq_true, if_false, next_world] at h
    have hto0 : isBeanstalkTimeoutError (i.next p w).1.2 =
        isBeanstalkTimeoutError ((w i.t.Conn).reserveResp
          ((w i.t.Conn).calls ++ List.replicate (0 + 1) i.reserveCall)).2.2 := by
      rw [next_error_eq]; simp
    rcases hto : isBeanstalkTimeoutError (i.next p w).1.2 with e | b
    · rw [hto] at h
      simp at h
    · cases b with
      | true =>
        rw [hto] at h
        simp only at h
        obtain ⟨n, hn, hc, hr, hk, ho⟩ := ih _ r i1 w1 h
        refine ⟨n + 1, by omega, ?_, ?_, ?_, ?_⟩
        · rw [hc, issue_calls_replicate]
        · rw [hr, issue_reserveResp, issue_calls_replicate]
        · intro k hlt
          cases k with
          | zero => rw [← hto0]; exact hto
          | succ k1 =>
            have := hk k1 (by omega)
            rw [issue_reserveResp, issue_calls_replicate] at this
            exact this
        · intro c hne
          rw [ho c hne]
          exact World.issue_other w _ c _ hne
      | false =>
        rw [hto] at h
        simp only [Option.some.injEq, Prod.mk.injEq, Except.ok.injEq] at h
        obtain ⟨rfl, _, rfl⟩ := h
        refine ⟨0, by omega, ?_, ?_, ?_, ?_⟩
        · simp [World.issue_same]
        · rw [next_error_eq]; simp
        · intro k hk; omega
        · intro c hne
          exact World.issue_other w _ c _ hne

/-! ## The claims -/

/-- C1: an open iterator whose server answers the next `N` reservations with a
timeout error and the one after them with `(tag, body)` returns, for every
fuel above `N`, the job built from `(tag, body)` with a nil error, after
issuing exactly `N + 1` reservation calls on its connection and nothing
else. -/
theorem C1_Next_retries_until_job (p : Pkg) (i : beanstalkJobIter) (w : World)
    (N tag : Nat) (body : List Byte)
    (hopen : i.closed = false)
    (htimeouts : ∀ k, k < N → ∃ cp, ((w i.t.Conn).reserveResp
        ((w i.t.Conn).calls ++ List.replicate (k + 1) i.reserveCall)).2.2 =
          some (Error.ConnError cp "reserve-with-timeout" (some "timeout")))
    (hjob : (w i.t.Conn).reserveResp
        ((w i.t.Conn).calls ++ List.replicate (N + 1) i.reserveCall) = (tag, body, none)) :
    ∀ fuel, N < fuel →
      ∃ j w1, i.Next p fuel w = some (.ok (some j, none), i, w1) ∧
        j.tag = tag ∧ j.ID = fmtSprint tag ∧ j.raw = body ∧
        j.acknowledger = some { id := tag, conn := i.t.Conn } ∧
        j.contentType = p.msgpackContentType ∧
        (w1 i.t.Conn).calls =
          (w i.t.Conn).calls ++ List.replicate (N + 1) (Call.reserve i.t.Name 1000000000) ∧
        ∀ c, c ≠ i.t.Conn → w1 c = w c := by
  intro fuel hfuel
  obtain ⟨w1, h1, h2, h3⟩ := Next_retries p i hopen tag body N w htimeouts hjob fuel hfuel
  exact ⟨i.jobOf p tag body, w1, h1, rfl, rfl, rfl, rfl, rfl, h2, h3⟩

/-- Witness for C1: two timeouts, then tag 7 with payload "world": three
reservation calls and a job with ID "7". -/
theorem C1_Next_retries_until_job_witness :
    ∃ j w1, jobsIter.Next examplePkg 3 scriptedWorld = some (.ok (some j, none), jobsIter, w1) ∧
      j.tag = 7 ∧ j.ID = "7" ∧ j.raw = worldBytes ∧
      j.acknowledger = some { id := 7, conn := 0 } ∧
      j.contentType = "application/msgpack" ∧
      (w1 0).calls = [Call.reserve ["jobs"] 1000000000, Call.reserve ["jobs"] 1000000000,
        Call.reserve ["jobs"] 1000000000] ∧
      ∀ c, c ≠ 0 → w1 c = scriptedWorld c :=
  C1_Next_retries_until_job examplePkg jobsIter scriptedWorld 2 7 worldBytes rfl
    (fun k hk => ⟨0, by
      have hk2 : k = 0 ∨ k = 1 := by omega
      rcases hk2 with rfl | rfl <;> rfl⟩)
    rfl 3 (by decide)

/-- C2: `Close` returns nil, and on an iterator on which `Close` has been
called at least once every call to `Next` (with any fuel above zero and
whatever the server would answer) returns a nil job and `ErrAlreadyClosed`,
leaves the world as it was, so that no reservation call is issued, and leaves
the iterator as it was, closed. -/
theorem C2_Next_after_Close (p : Pkg) (i : beanstalkJobIter) (h : ClosedOnce p i) :
    (∀ i0 : beanstalkJobIter, i0.Close.1 = none) ∧
    i.closed = true ∧
    ∀ (fuel : Nat) (w : World), 0 < fuel →
      i.Next p fuel w = some (.ok (none, some Error.ErrAlreadyClosed), i, w) := by
  refine ⟨fun _ => rfl, h.closed, ?_⟩
  intro fuel w hfuel
  obtain ⟨f, rfl⟩ : ∃ f, fuel = f + 1 := ⟨fuel - 1, by omega⟩
  exact Next_closed p i h.closed f w

/-- Witness for C2: the iterator of the queue `jobs`, closed and then asked for
a job twice, on a server that would deliver tag 7 at once. -/
theorem C2_Next_after_Close_witness :
    (∀ i0 : beanstalkJobIter, i0.Close.1 = none) ∧
    (jobsIter.Close).2.closed = true ∧
    ∀ (fuel : Nat) (w : World), 0 < fuel →
      (jobsIter.Close).2.Next examplePkg fuel w =
        some (.ok (none, some Error.ErrAlreadyClosed), (jobsIter.Close).2, w) :=
  C2_Next_after_Close examplePkg (jobsIter.Close).2
    (ClosedOnce.next (jobsIter.Close).2 1 (fun _ => scriptedConn 42 0 7 worldBytes)
      (.ok (none, some Error.ErrAlreadyClosed)) (jobsIter.Close).2
      (fun _ => scriptedConn 42 0 7 worldBytes) (ClosedOnce.close jobsIter) rfl)

/-- C3, as amended: `Reject(true)` issues exactly one call on the
acknowledger's connection, `release` of its tag at priority 1 with zero delay,
returns the server's answer to it and touches no other connection. -/
theorem C3_Reject_requeue_releases_at_priority_one (a : beanstalkAcknowledger) (w : World) :
    ((a.Reject true w).2 a.conn).calls = (w a.conn).calls ++ [Call.release a.id 1 0] ∧
    (a.Reject true w).1 =
      (w a.conn).releaseResp ((w a.conn).calls ++ [Call.release a.id 1 0]) ∧
    ∀ c, c ≠ a.conn → (a.Reject true w).2 c = w c := by
  refine ⟨?_, ?_, ?_⟩
  · simp [beanstalkAcknowledger.Reject, Conn.Release, World.issue_same]
  · simp [beanstalkAcknowledger.Reject, Conn.Release, World.issue_same]
  · intro c hc
    simp [beanstalkAcknowledger.Reject, Conn.Release, World.issue_other _ _ _ _ hc]

/-- C3, counterexample: rejecting tag 7 with requeue on a fresh connection
issues `release(7, 1, 0)`, not `release(7, 0, 0)`. -/
theorem C3_Reject_requeue_not_priority_zero :
    (((beanstalkAcknowledger.mk 7 0).Reject true scriptedWorld).2 0).calls =
        [Call.release 7 1 0] ∧
    (((beanstalkAcknowledger.mk 7 0).Reject true scriptedWorld).2 0).calls ≠
        [Call.release 7 0 0] := by
  constructor
  · rfl
  · decide

/-- C4, the code at the failing input: on the job with payload "hello" and no
ID, with the server answering the put with tag 42 and no error,
`PublishDelayed` with delay 0 sets the tag to 42 and leaves the ID empty, while
`Publish` sets the tag to 42 and the ID to "42". -/
theorem C4_PublishDelayed_leaves_ID_unset :
    (jobsQueue.PublishDelayed (some (blankJob 5 helloBytes)) 0 scriptedWorld).1 = none ∧
    (jobsQueue.PublishDelayed (some (blankJob 5 helloBytes)) 0 scriptedWorld).2.1 =
      some { blankJob 5 helloBytes with tag := 42, ID := "" } ∧
    (jobsQueue.Publish (some (blankJob 5 helloBytes)) scriptedWorld).2.1 =
      some { blankJob 5 helloBytes with tag := 42, ID := "42" } ∧
    (jobsQueue.PublishDelayed (some (blankJob 5 helloBytes)) 0 scriptedWorld).2.1 ≠
      (jobsQueue.Publish (some (blankJob 5 helloBytes)) scriptedWorld).2.1 := by
  refine ⟨rfl, rfl, rfl, ?_⟩
  decide

/-- C5: on a nil job or a job whose payload has length 0, `Publish` and
`PublishDelayed` with any delay return `ErrEmptyJob`, leave the job as it was
and leave the world as it was, so that no call is issued on any connection. -/
theorem C5_empty_job_rejected (q : beanstalkQueue) (j : Option Job) (w : World)
    (h : j = none ∨ ∃ job, j = some job ∧ job.raw.length = 0) :
    q.Publish j w = (some Error.ErrEmptyJob, j, w) ∧
    ∀ delay : Duration, q.PublishDelayed j delay w = (some Error.ErrEmptyJob, j, w) := by
  rcases h with rfl | ⟨job, rfl, hlen⟩
  · exact ⟨rfl, fun _ => rfl⟩
  · exact ⟨by simp [beanstalkQueue.Publish, hlen],
      fun _ => by simp [beanstalkQueue.PublishDelayed, hlen]⟩

/-- Witness for C5: the nil job, and a job with an empty payload and priority
5, on the queue `jobs`. -/
theorem C5_empty_job_rejected_witness :
    (jobsQueue.Publish none scriptedWorld = (some Error.ErrEmptyJob, none, scriptedWorld) ∧
      ∀ delay : Duration, jobsQueue.PublishDelayed none delay scriptedWorld =
        (some Error.ErrEmptyJob, none, scriptedWorld)) ∧
    (blankJob 5 []).raw.length = 0 ∧
    jobsQueue.Publish (some (blankJob 5 [])) scriptedWorld =
      (some Error.ErrEmptyJob, some (blankJob 5 []), scriptedWorld) ∧
    ∀ delay : Duration, jobsQueue.PublishDelayed (some (blankJob 5 [])) delay scriptedWorld =
      (some Error.ErrEmptyJob, some (blankJob 5 []), scriptedWorld) :=
  ⟨C5_empty_job_rejected jobsQueue none scriptedWorld (Or.inl rfl), rfl,
   C5_empty_job_rejected jobsQueue (some (blankJob 5 [])) scriptedWorld
    (Or.inr ⟨blankJob 5 [], rfl, rfl⟩)⟩

/-- C6: `Reject(false)` is `Ack`; `Ack` issues exactly one call on the
acknowledger's connection, `delete` of its tag, returns the server's answer to
it and touches no other connection; `Reject(true)` issues exactly one call, a
`release` of that tag, so the calls it adds hold no `delete`. -/
theorem C6_Reject_and_Ack_calls (a : beanstalkAcknowledger) (w : World) :
    a.Reject false w = a.Ack w ∧
    ((a.Ack w).2 a.conn).calls = (w a.conn).calls ++ [Call.delete a.id] ∧
    (a.Ack w).1 = (w a.conn).deleteResp ((w a.conn).calls ++ [Call.delete a.id]) ∧
    (∀ c, c ≠ a.conn → (a.Ack w).2 c = w c) ∧
    (∃ pri delay, ((a.Reject true w).2 a.conn).calls =
      (w a.conn).calls ++ [Call.release a.id pri delay]) ∧
    (∀ id, Call.delete id ∉
      (((a.Reject true w).2 a.conn).calls.drop (w a.conn).calls.length)) ∧
    ∀ c, c ≠ a.conn → (a.Reject true w).2 c = w c := by
  refine ⟨rfl, ?_, ?_, ?_, ⟨1, 0, ?_⟩, ?_, ?_⟩
  · simp [beanstalkAcknowledger.Ack, Conn.Delete, World.issue_same]
  · simp [beanstalkAcknowledger.Ack, Conn.Delete, World.issue_same]
  · intro c hc
    simp [beanstalkAcknowledger.Ack, Conn.Delete, World.issue_other _ _ _ _ hc]
  · simp [beanstalkAcknowledger.Reject, Conn.Release, World.issue_same]
  · intro id
    simp [beanstalkAcknowledger.Reject, Conn.Release, World.issue_same]
  · intro c hc
    simp [beanstalkAcknowledger.Reject, Conn.Release, World.issue_other _ _ _ _ hc]

/-- C7: on a job with a non-empty payload and a priority that fits `uint32`,
`Publish` issues exactly one call, a put on the queue's tube carrying the
payload, the priority, zero delay and a time-to-run of one minute; when the
server answers that put with tag `t` and no error, `Publish` returns nil and
the job has tag `t` and ID the decimal string of `t`, which is not empty, with
payload and priority as before. -/
theorem C7_Publish_puts_and_sets_ID (q : beanstalkQueue) (j : Job) (w : World)
    (hp : j.raw ≠ []) (hk : j.Priority < 2 ^ 32) :
    ((q.Publish (some j) w).2.2 q.tube.Conn).calls =
      (w q.tube.Conn).calls ++ [Call.put q.tube.Name j.raw j.Priority 0 60000000000] ∧
    (∀ c, c ≠ q.tube.Conn → (q.Publish (some j) w).2.2 c = w c) ∧
    ∀ t, (w q.tube.Conn).putResp
        ((w q.tube.Conn).calls ++ [Call.put q.tube.Name j.raw j.Priority 0 60000000000]) =
          (t, none) →
      (q.Publish (some j) w).1 = none ∧
      ∃ j1, (q.Publish (some j) w).2.1 = some j1 ∧ j1.tag = t ∧ j1.ID = fmtSprint t ∧
        j1.ID ≠ "" ∧ j1.raw = j.raw ∧ j1.Priority = j.Priority := by
  have hlen : j.raw.length ≠ 0 := by
    intro h
    exact hp (List.length_eq_zero.mp h)
  have hpri : uint32 j.Priority = j.Priority := Nat.mod_eq_of_lt hk
  have hmin : (1 * Minute : Duration) = 60000000000 := by decide
  refine ⟨?_, ?_, ?_⟩
  · simp [beanstalkQueue.Publish, hlen, Tube.Put, World.issue_same, hpri, hmin]
  · intro c hc
    simp [beanstalkQueue.Publish, hlen, Tube.Put, World.issue_other _ _ _ _ hc]
  · intro t ht
    simp only [beanstalkQueue.Publish, hlen, if_false, Tube.Put, World.issue_same, hpri, hmin,
      ht]
    exact ⟨trivial, _, rfl, rfl, rfl, fmtSprint_ne_empty t, rfl, rfl⟩

/-- Witness for C7: payload "hello" at priority 5, the server answers the put
with tag 42: no error and ID "42". -/
theorem C7_Publish_puts_and_sets_ID_witness :
    ((jobsQueue.Publish (some (blankJob 5 helloBytes)) scriptedWorld).2.2 0).calls =
      [Call.put "jobs" helloBytes 5 0 60000000000] ∧
    (jobsQueue.Publish (some (blankJob 5 helloBytes)) scriptedWorld).1 = none ∧
    ∃ j1, (jobsQueue.Publish (some (blankJob 5 helloBytes)) scriptedWorld).2.1 = some j1 ∧
      j1.tag = 42 ∧ j1.ID = "42" ∧ j1.ID ≠ "" ∧ j1.raw = helloBytes ∧ j1.Priority = 5 :=
  ⟨(C7_Publish_puts_and_sets_ID jobsQueue (blankJob 5 helloBytes) scriptedWorld
      (by decide) (by decide)).1,
   (C7_Publish_puts_and_sets_ID jobsQueue (blankJob 5 helloBytes) scriptedWorld
      (by decide) (by decide)).2.2 42 rfl⟩

/-- C8: whenever `Next` returns, it returns either a job and a nil error or a
nil job and a non-nil error, and `isBeanstalkTimeoutError` is false on the
error it returns.  On an open iterator whose server answers the next `N`
reservations with timeout-class errors and the one after them with an error
`e` that is not a timeout, `Next` returns `e` unchanged with a nil job, for
every fuel above `N`, after exactly `N + 1` reservation calls and nothing
else.  And whenever `Next` returns on an open iterator, what it returns is the
server's answer to the last reservation call it issued, every earlier one of
this call having been answered with a timeout-class error: no answer that is
not a timeout is ever followed by a further attempt. -/
theorem C8_Next_result_shape (p : Pkg) :
    (∀ (fuel : Nat) (i : beanstalkJobIter) (w : World) (j : Option Job) (err : Option Error)
        (i1 : beanstalkJobIter) (w1 : World),
        i.Next p fuel w = some (.ok (j, err), i1, w1) →
          ((j ≠ none ∧ err = none) ∨ (j = none ∧ err ≠ none)) ∧
          isBeanstalkTimeoutError err = .ok false) ∧
    (∀ (i : beanstalkJobIter) (w : World) (e : Error) (N : Nat),
        i.closed = false →
        (∀ k, k < N → isBeanstalkTimeoutError ((w i.t.Conn).reserveResp
          ((w i.t.Conn).calls ++
            List.replicate (k + 1) (Call.reserve i.t.Name 1000000000))).2.2 = .ok true) →
        ((w i.t.Conn).reserveResp
          ((w i.t.Conn).calls ++
            List.replicate (N + 1) (Call.reserve i.t.Name 1000000000))).2.2 = some e →
        isBeanstalkTimeoutError (some e) = .ok false →
        ∀ fuel, N < fuel →
          ∃ w1, i.Next p fuel w = some (.ok (none, some e), i, w1) ∧
            (w1 i.t.Conn).calls =
              (w i.t.Conn).calls ++
                List.replicate (N + 1) (Call.reserve i.t.Name 1000000000) ∧
            ∀ c, c ≠ i.t.Conn → w1 c = w c) ∧
    (∀ (fuel : Nat) (i : beanstalkJobIter) (w : World) (j : Option Job) (err : Option Error)
        (i1 : beanstalkJobIter) (w1 : World),
        i.closed = false →
        i.Next p fuel w = some (.ok (j, err), i1, w1) →
          ∃ n, n < fuel ∧
            (w1 i.t.Conn).calls =
              (w i.t.Conn).calls ++
                List.replicate (n + 1) (Call.reserve i.t.Name 1000000000) ∧
            err = ((w i.t.Conn).reserveResp
              ((w i.t.Conn).calls ++
                List.replicate (n + 1) (Call.reserve i.t.Name 1000000000))).2.2 ∧
            (∀ k, k < n → isBeanstalkTimeoutError ((w i.t.Conn).reserveResp
              ((w i.t.Conn).calls ++
                List.replicate (k + 1) (Call.reserve i.t.Name 1000000000))).2.2 = .ok true) ∧
            ∀ c, c ≠ i.t.Conn → w1 c = w c) := by
  refine ⟨?_, ?_, ?_⟩
  · intro fuel i w j err i1 w1 h
    obtain ⟨_, hcases, hto⟩ := Next_returns p fuel i w (j, err) i1 w1 h
    refine ⟨?_, hto⟩
    rcases hcases with hc | ⟨w0, hw0, _⟩
    · simp only [Prod.mk.injEq] at hc
      obtain ⟨rfl, rfl⟩ := hc
      exact Or.inr ⟨rfl, by simp⟩
    · have hs := next_shape p i w0
      rw [← hw0] at hs
      exact hs
  · intro i w e N hopen hto he hne fuel hfuel
    exact Next_hard_error p i hopen e hne N w hto he fuel hfuel
  · intro fuel i w j err i1 w1 hopen h
    exact Next_returns_open p i hopen fuel w (j, err) i1 w1 h

/-- Witness for C8: the iterator of the queue `jobs` on a server that answers
the first reservation with a timeout and the second with the transport error
"NOT_FOUND": `Next` returns that error after two reservation calls. -/
theorem C8_Next_result_shape_witness :
    (jobsIter.Next examplePkg 2 failingWorld =
        some (.ok (none, some (Error.other "NOT_FOUND")), jobsIter,
          (failingWorld.issue 0 (Call.reserve ["jobs"] 1000000000)).issue 0
            (Call.reserve ["jobs"] 1000000000)) ∧
      (((none : Option Job) ≠ none ∧ some (Error.other "NOT_FOUND") = none) ∨
        ((none : Option Job) = none ∧ some (Error.other "NOT_FOUND") ≠ none)) ∧
      isBeanstalkTimeoutError (some (Error.other "NOT_FOUND")) = .ok false) ∧
    (∃ w1, jobsIter.Next examplePkg 2 failingWorld =
        some (.ok (none, some (Error.other "NOT_FOUND")), jobsIter, w1) ∧
      (w1 0).calls = [Call.reserve ["jobs"] 1000000000, Call.reserve ["jobs"] 1000000000] ∧
      ∀ c, c ≠ 0 → w1 c = failingWorld c) ∧
    ∃ n, n < 2 ∧
      (((failingWorld.issue 0 (Call.reserve ["jobs"] 1000000000)).issue 0
          (Call.reserve ["jobs"] 1000000000)) 0).calls =
        List.replicate (n + 1) (Call.reserve ["jobs"] 1000000000) ∧
      some (Error.other "NOT_FOUND") = ((failingWorld 0).reserveResp
        (List.replicate (n + 1) (Call.reserve ["jobs"] 1000000000))).2.2 ∧
      (∀ k, k < n → isBeanstalkTimeoutError ((failingWorld 0).reserveResp
        (List.replicate (k + 1) (Call.reserve ["jobs"] 1000000000))).2.2 = .ok true) ∧
      ∀ c, c ≠ 0 →
        ((failingWorld.issue 0 (Call.reserve ["jobs"] 1000000000)).issue 0
          (Call.reserve ["jobs"] 1000000000)) c = failingWorld c :=
  ⟨⟨rfl, (C8_Next_result_shape examplePkg).1 2 jobsIter failingWorld none
      (some (Error.other "NOT_FOUND")) jobsIter
      ((failingWorld.issue 0 (Call.reserve ["jobs"] 1000000000)).issue 0
        (Call.reserve ["jobs"] 1000000000)) rfl⟩,
   (C8_Next_result_shape examplePkg).2.1 jobsIter failingWorld
      (Error.other "NOT_FOUND") 1 rfl
      (fun k hk => by
        obtain rfl : k = 0 := by omega
        rfl)
      rfl rfl 2 (by decide),
   (C8_Next_result_shape examplePkg).2.2 2 jobsIter failingWorld none
      (some (Error.other "NOT_FOUND")) jobsIter
      ((failingWorld.issue 0 (Call.reserve ["jobs"] 1000000000)).issue 0
        (Call.reserve ["jobs"] 1000000000)) rfl rfl⟩

/-- C9: when the server answers the next reservation of an open iterator with
`(t, b)` and no error, `Next` returns a job with tag `t`, ID the decimal string
of `t`, payload `b`, the msgpack content type and an acknowledger bound to `t`
and to the iterator's connection; `Ack` on that acknowledger issues exactly one
call, `delete` of `t`, on that connection. -/
theorem C9_Next_builds_job (p : Pkg) (i : beanstalkJobIter) (w : World) (t : Nat)
    (b : List Byte) (hopen : i.closed = false)
    (hres : (w i.t.Conn).reserveResp
      ((w i.t.Conn).calls ++ [Call.reserve i.t.Name 1000000000]) = (t, b, none)) :
    ∀ fuel, 0 < fuel →
      ∃ j a w1, i.Next p fuel w = some (.ok (some j, none), i, w1) ∧
        j.tag = t ∧ j.ID = fmtSprint t ∧ j.raw = b ∧
        j.contentType = p.msgpackContentType ∧
        j.acknowledger = some a ∧ a.id = t ∧ a.conn = i.t.Conn ∧
        ∀ w2 : World,
          ((a.Ack w2).2 i.t.Conn).calls = (w2 i.t.Conn).calls ++ [Call.delete t] ∧
          ∀ c, c ≠ i.t.Conn → (a.Ack w2).2 c = w2 c := by
  intro fuel hfuel
  obtain ⟨w1, h1, _, _⟩ :=
    Next_retries p i hopen t b 0 w (fun k hk => absurd hk (Nat.not_lt_zero k)) hres fuel hfuel
  refine ⟨i.jobOf p t b, { id := t, conn := i.t.Conn }, w1, h1, rfl, rfl, rfl, rfl, rfl, rfl,
    rfl, ?_⟩
  intro w2
  constructor
  · simp [beanstalkAcknowledger.Ack, Conn.Delete, World.issue_same]
  · intro c hc
    simp [beanstalkAcknowledger.Ack, Conn.Delete, World.issue_other _ _ _ _ hc]

/-- Witness for C9: the server delivers tag 7 with payload "world" at once:
ID "7", payload "world", and `Ack` deletes 7. -/
theorem C9_Next_builds_job_witness :
    ∃ j a w1, jobsIter.Next examplePkg 1 (fun _ => scriptedConn 42 0 7 worldBytes) =
        some (.ok (some j, none), jobsIter, w1) ∧
      j.tag = 7 ∧ j.ID = "7" ∧ j.raw = worldBytes ∧
      j.contentType = "application/msgpack" ∧
      j.acknowledger = some a ∧ a.id = 7 ∧ a.conn = 0 ∧
      ∀ w2 : World,
        ((a.Ack w2).2 0).calls = (w2 0).calls ++ [Call.delete 7] ∧
        ∀ c, c ≠ 0 → (a.Ack w2).2 c = w2 c :=
  C9_Next_builds_job examplePkg jobsIter (fun _ => scriptedConn 42 0 7 worldBytes) 7
    worldBytes rfl rfl 1 (by decide)

/-- C10: for every callback, `Transaction` returns `ErrTxNotSupported` and
leaves the world as it was: the trace of every connection is unchanged, which
also holds for a callback that would publish a job. -/
theorem C10_Transaction_not_supported (q : beanstalkQueue) (txcb : TxCallback) (w : World) :
    q.Transaction txcb w = (some Error.ErrTxNotSupported, w) ∧
    (∀ c, ((q.Transaction txcb w).2 c).calls = (w c).calls) ∧
    ∀ j : Job,
      q.Transaction (fun q1 w1 => ((q1.Publish (some j) w1).1, (q1.Publish (some j) w1).2.2)) w =
        (some Error.ErrTxNotSupported, w) :=
  ⟨rfl, fun _ => rfl, fun _ => rfl⟩

end Queue
